import Mathlib

/-!
Verification of the `digital_certificate` ink! contract (src/lib.rs).

The contract state `DigitalCertificate` is embedded as a Lean structure.
`AccountId` (a 32-byte identity in ink) is modelled as a list of bytes
compared for exact equality; the reserved all-zero identity
`AccountId::from([0x0; 32])` is `nullAccount`.  The storage
`Mapping<TokenId, AccountId>` is modelled as an association list with
`get` / `contains` / `insert` (upsert) / `take` (remove) mirroring the
ink `Mapping` operations used by the contract.  The mutating messages
`mint` and `burn` take the caller identity (`self.env().caller()` in the
source) as an explicit argument and return the `Result` value paired
with the post-call contract state; event emission carries no state and
is not modelled.
-/

namespace DigitalCert

/-- `pub type TokenId = u32;` — only equality of ids is used, so `Nat`. -/
abbrev TokenId := Nat

/-- `AccountId`: an opaque byte identity compared by exact equality. -/
abbrev AccountId := List Nat

/-- `AccountId::from([0x0; 32])`, the reserved null identity. -/
def nullAccount : AccountId := List.replicate 32 0

/-- The `token_owner` storage mapping, as an association list. -/
abbrev TokenMap := List (TokenId × AccountId)

/-- `Mapping::get`: first value stored under the key, if any. -/
def TokenMap.get (m : TokenMap) (id : TokenId) : Option AccountId :=
  match m with
  | [] => none
  | (k, v) :: rest => if k = id then some v else TokenMap.get rest id

/-- `Mapping::contains`: whether the key is present. -/
def TokenMap.contains (m : TokenMap) (id : TokenId) : Bool :=
  (m.get id).isSome

/-- `Mapping::insert`: upsert of a key/value pair. -/
def TokenMap.insert (m : TokenMap) (id : TokenId) (v : AccountId) : TokenMap :=
  match m with
  | [] => [(id, v)]
  | (k, w) :: rest =>
      if k = id then (id, v) :: rest else (k, w) :: TokenMap.insert rest id v

/-- `Mapping::take`: remove the entry stored under the key. -/
def TokenMap.take (m : TokenMap) (id : TokenId) : TokenMap :=
  match m with
  | [] => []
  | (k, w) :: rest =>
      if k = id then rest else (k, w) :: TokenMap.take rest id

/-- The error enum of the contract (all six variants, verbatim). -/
inductive Error where
  | NotOwner
  | OnlyAdminCanIssue
  | TokenExists
  | NotAllowed
  | OnlyAdminCanCheck
  | TokenNotFound
deriving DecidableEq, Repr

/-- The `#[ink(storage)]` struct `DigitalCertificate`. -/
structure DigitalCertificate where
  issuer : AccountId
  certificate_authority : List Nat
  token_uri : List Nat
  token_owner : TokenMap
  candidate_name : List Nat
  expiration_date : List Nat
deriving DecidableEq, Repr

namespace DigitalCertificate

/-- The `#[ink(constructor)] new`: sets `issuer` and
`certificate_authority`; every other field starts at its default. -/
def new (issuer : AccountId) (certificate_authority : List Nat) :
    DigitalCertificate :=
  { issuer := issuer
    certificate_authority := certificate_authority
    token_uri := []
    token_owner := []
    candidate_name := []
    expiration_date := [] }

/-- Private helper `add_token_to`: duplicate-id check, then null-owner
check, then insertion.  Returns the result paired with the state. -/
def add_token_to (self : DigitalCertificate) (toAcct : AccountId)
    (id : TokenId) : Except Error Unit × DigitalCertificate :=
  if TokenMap.contains self.token_owner id then
    (.error .TokenExists, self)
  else if toAcct = nullAccount then
    (.error .NotAllowed, self)
  else
    (.ok (), { self with token_owner := self.token_owner.insert id toAcct })

/-- The `mint` message.  `caller` stands for `self.env().caller()`. -/
def mint (self : DigitalCertificate) (caller : AccountId) (id : TokenId)
    (token_uri : List Nat) (token_owner : AccountId)
    (expiration_date : List Nat) (candidate_name : List Nat) :
    Except Error Unit × DigitalCertificate :=
  if caller ≠ self.issuer then
    (.error .OnlyAdminCanIssue, self)
  else
    let s1 := { self with
                  token_uri := token_uri
                  expiration_date := expiration_date
                  candidate_name := candidate_name }
    match s1.add_token_to token_owner id with
    | (.error e, s2) => (.error e, s2)
    | (.ok (), s2) => (.ok (), s2)

/-- The `owner_of` message: a pure read of the mapping. -/
def owner_of (self : DigitalCertificate) (id : TokenId) :
    Option AccountId :=
  self.token_owner.get id

/-- The `burn` message.  `caller` stands for `self.env().caller()`. -/
def burn (self : DigitalCertificate) (caller : AccountId) (id : TokenId) :
    Except Error Unit × DigitalCertificate :=
  match self.token_owner.get id with
  | none => (.error .TokenNotFound, self)
  | some owner =>
      if owner ≠ caller then
        (.error .NotOwner, self)
      else
        (.ok (), { self with token_owner := self.token_owner.take id })

end DigitalCertificate

/-! Concrete identities and states used by witnesses and the
counterexample. -/

/-- A concrete non-null identity (the issuer in scenarios). -/
def acctA : AccountId := List.replicate 32 1

/-- A second concrete non-null identity (a token owner). -/
def acctB : AccountId := List.replicate 32 2

/-- A third concrete non-null identity. -/
def acctC : AccountId := List.replicate 32 3

/-- A freshly constructed registry with issuer `acctA`. -/
def cert0 : DigitalCertificate := DigitalCertificate.new acctA [7, 7]

/-- A registry in which token 1 is live and owned by `acctB`. -/
def certWithToken1 : DigitalCertificate :=
  { cert0 with token_owner := [(1, acctB)] }

instance : DecidableEq (Except Error Unit) := fun a b =>
  match a, b with
  | .ok (), .ok () => isTrue rfl
  | .error e1, .error e2 =>
      if h : e1 = e2 then isTrue (by rw [h])
      else isFalse (fun hc => h (by cases hc; rfl))
  | .ok _, .error _ => isFalse (fun hc => by cases hc)
  | .error _, .ok _ => isFalse (fun hc => by cases hc)

/-! Helper lemmas about the mapping operations. -/

theorem TokenMap.contains_eq_false_iff (m : TokenMap) (id : TokenId) :
    m.contains id = false ↔ m.get id = none := by
  cases h : m.get id <;> simp [TokenMap.contains, h]

theorem TokenMap.get_insert_self (m : TokenMap) (id : TokenId)
    (v : AccountId) : (m.insert id v).get id = some v := by
  induction m with
  | nil => simp [TokenMap.insert, TokenMap.get]
  | cons p rest ih =>
      obtain ⟨a, b⟩ := p
      by_cases h : a = id <;>
        simp [TokenMap.insert, TokenMap.get, h, ih]

theorem TokenMap.take_insert_of_get_none (m : TokenMap) (id : TokenId)
    (v : AccountId) (h : m.get id = none) :
    (m.insert id v).take id = m := by
  induction m with
  | nil => simp [TokenMap.insert, TokenMap.take]
  | cons p rest ih =>
      obtain ⟨a, b⟩ := p
      by_cases ha : a = id
      · simp [TokenMap.get, ha] at h
      · simp [TokenMap.get, ha] at h
        simp [TokenMap.insert, TokenMap.take, ha, ih h]

/-- Inversion of a successful `mint`: the caller was the issuer, the id
was fresh, the owner was non-null, and the post state updates the three
metadata fields and inserts the ownership entry. -/
theorem mint_ok_inv (s : DigitalCertificate) (caller : AccountId)
    (k : TokenId) (tu : List Nat) (o : AccountId) (ed cn : List Nat)
    (h : (s.mint caller k tu o ed cn).1 = .ok ()) :
    caller = s.issuer ∧ s.token_owner.get k = none ∧ o ≠ nullAccount ∧
    (s.mint caller k tu o ed cn).2 =
      { s with token_uri := tu, expiration_date := ed,
               candidate_name := cn,
               token_owner := s.token_owner.insert k o } := by
  by_cases hc : caller = s.issuer
  · by_cases hk : TokenMap.contains s.token_owner k
    · simp [DigitalCertificate.mint, DigitalCertificate.add_token_to,
            hc, hk] at h
    · by_cases ho : o = nullAccount
      · simp [DigitalCertificate.mint, DigitalCertificate.add_token_to,
              hc, hk, ho] at h
      · refine ⟨hc, (TokenMap.contains_eq_false_iff _ _).mp
          (by simpa using hk), ho, ?_⟩
        simp [DigitalCertificate.mint, DigitalCertificate.add_token_to,
              hc, hk, ho]
  · simp [DigitalCertificate.mint, hc] at h

/-- C1: for every TokenId `k` not currently a key of `token_owner` and
every non-null owner identity `o`, `mint(k, …, o, …)` invoked with
caller equal to `issuer` returns `Ok`, and afterwards
`owner_of(k) = Some(o)`. -/
theorem mint_fresh_nonnull_ok (s : DigitalCertificate) (k : TokenId)
    (tu : List Nat) (o : AccountId) (ed cn : List Nat)
    (hk : TokenMap.contains s.token_owner k = false)
    (ho : o ≠ nullAccount) :
    (s.mint s.issuer k tu o ed cn).1 = .ok () ∧
    (s.mint s.issuer k tu o ed cn).2.owner_of k = some o := by
  simp [DigitalCertificate.mint, DigitalCertificate.add_token_to,
        DigitalCertificate.owner_of, hk, ho, TokenMap.get_insert_self]

/-- Witness for C1 at a concrete fresh registry. -/
theorem mint_fresh_nonnull_ok_witness :
    (cert0.mint cert0.issuer 1 [5] acctB [6] [7]).1 = .ok () ∧
    (cert0.mint cert0.issuer 1 [5] acctB [6] [7]).2.owner_of 1 =
      some acctB :=
  mint_fresh_nonnull_ok cert0 1 [5] acctB [6] [7] (by decide) (by decide)

/-- C2: for every identity `u` different from `issuer`, `mint` invoked
with caller `u` returns `Err(OnlyAdminCanIssue)` and leaves
`token_owner` unchanged, for every argument tuple and every prior
registry state. -/
theorem mint_not_issuer_rejected (s : DigitalCertificate)
    (u : AccountId) (k : TokenId) (tu : List Nat) (o : AccountId)
    (ed cn : List Nat) (hu : u ≠ s.issuer) :
    (s.mint u k tu o ed cn).1 = .error .OnlyAdminCanIssue ∧
    (s.mint u k tu o ed cn).2.token_owner = s.token_owner := by
  simp [DigitalCertificate.mint, hu]

/-- Witness for C2: `acctB` is not the issuer of `cert0`. -/
theorem mint_not_issuer_rejected_witness :
    (cert0.mint acctB 1 [5] acctC [6] [7]).1 =
      .error .OnlyAdminCanIssue ∧
    (cert0.mint acctB 1 [5] acctC [6] [7]).2.token_owner =
      cert0.token_owner :=
  mint_not_issuer_rejected cert0 acctB 1 [5] acctC [6] [7] (by decide)

/-- C3 counterexample: with token 1 already live, `mint` by the issuer
targeting the null identity returns `TokenExists`, not `NotAllowed`,
refuting the claim for an already-present id. -/
theorem mint_null_owner_existing_id_cex :
    TokenMap.contains certWithToken1.token_owner 1 = true ∧
    (certWithToken1.mint certWithToken1.issuer 1 [] nullAccount
        [] []).1 ≠ Except.error Error.NotAllowed := by
  constructor
  · decide
  · decide

/-- C3 (amended): `mint` invoked with caller equal to `issuer` and
owner argument equal to the all-zero null identity returns
`Err(NotAllowed)` for every TokenId `k` NOT already present in
`token_owner` (for a present `k` the duplicate-id check fires first
and the result is `TokenExists`). -/
theorem mint_null_owner_fresh_notAllowed (s : DigitalCertificate)
    (k : TokenId) (tu ed cn : List Nat)
    (hk : TokenMap.contains s.token_owner k = false) :
    (s.mint s.issuer k tu nullAccount ed cn).1 =
      .error .NotAllowed := by
  simp [DigitalCertificate.mint, DigitalCertificate.add_token_to, hk]

/-- Witness for the amended C3 at a fresh registry. -/
theorem mint_null_owner_fresh_notAllowed_witness :
    (cert0.mint cert0.issuer 2 [] nullAccount [] []).1 =
      .error .NotAllowed :=
  mint_null_owner_fresh_notAllowed cert0 2 [] [] [] (by decide)

/-- C4: for every TokenId `k` already present as a key of
`token_owner`, `mint` invoked with caller equal to `issuer` on `k`
returns `Err(TokenExists)`, and `owner_of(k)` afterwards equals its
value before the call. -/
theorem mint_existing_id_tokenExists (s : DigitalCertificate)
    (k : TokenId) (tu : List Nat) (o : AccountId) (ed cn : List Nat)
    (hk : TokenMap.contains s.token_owner k = true) :
    (s.mint s.issuer k tu o ed cn).1 = .error .TokenExists ∧
    (s.mint s.issuer k tu o ed cn).2.owner_of k = s.owner_of k := by
  simp [DigitalCertificate.mint, DigitalCertificate.add_token_to,
        DigitalCertificate.owner_of, hk]

/-- Witness for C4: re-minting live token 1 fails and its owner stays
`acctB`. -/
theorem mint_existing_id_tokenExists_witness :
    (certWithToken1.mint certWithToken1.issuer 1 [5] acctC
        [6] [7]).1 = .error .TokenExists ∧
    (certWithToken1.mint certWithToken1.issuer 1 [5] acctC
        [6] [7]).2.owner_of 1 = certWithToken1.owner_of 1 :=
  mint_existing_id_tokenExists certWithToken1 1 [5] acctC [6] [7]
    (by decide)

/-- C5: `burn(k)` returns `Err(TokenNotFound)` whenever `k` is absent;
whenever `k` is live with recorded owner different from the caller,
`burn(k)` returns `Err(NotOwner)` and leaves the state unchanged; and
`burn` fails only with these two errors. -/
theorem burn_error_cases (s : DigitalCertificate) (caller : AccountId)
    (k : TokenId) :
    (s.owner_of k = none →
        s.burn caller k = (.error .TokenNotFound, s)) ∧
    (∀ o : AccountId, s.owner_of k = some o → o ≠ caller →
        s.burn caller k = (.error .NotOwner, s)) ∧
    (∀ e : Error, (s.burn caller k).1 = .error e →
        e = .TokenNotFound ∨ e = .NotOwner) := by
  cases hg : s.token_owner.get k with
  | none =>
      refine ⟨fun _ => ?_, fun o ho hne => ?_, fun e he => ?_⟩
      · simp [DigitalCertificate.burn, hg]
      · rw [DigitalCertificate.owner_of, hg] at ho; cases ho
      · simp [DigitalCertificate.burn, hg] at he
        exact Or.inl he.symm
  | some ow =>
      refine ⟨fun habs => ?_, fun o ho hne => ?_, fun e he => ?_⟩
      · rw [DigitalCertificate.owner_of, hg] at habs; cases habs
      · rw [DigitalCertificate.owner_of, hg] at ho
        cases ho
        simp [DigitalCertificate.burn, hg, hne]
      · by_cases hca : ow = caller
        · simp [DigitalCertificate.burn, hg, hca] at he
        · simp [DigitalCertificate.burn, hg, hca] at he
          exact Or.inr he.symm

/-- Witness for C5: burning an absent id fails with `TokenNotFound`. -/
theorem burn_error_cases_witness :
    cert0.burn acctB 1 = (.error .TokenNotFound, cert0) :=
  (burn_error_cases cert0 acctB 1).1 (by decide)

/-- C6: after any successful `mint(k, …, o, …)`, invoking `burn(k)`
with caller `o` returns `Ok`, and afterwards `owner_of(k) = None`. -/
theorem mint_then_burn_by_owner_ok (s : DigitalCertificate)
    (caller : AccountId) (k : TokenId) (tu : List Nat) (o : AccountId)
    (ed cn : List Nat) (h : (s.mint caller k tu o ed cn).1 = .ok ()) :
    ((s.mint caller k tu o ed cn).2.burn o k).1 = .ok () ∧
    ((s.mint caller k tu o ed cn).2.burn o k).2.owner_of k = none := by
  obtain ⟨hc, hget, ho, hstate⟩ := mint_ok_inv s caller k tu o ed cn h
  rw [hstate]
  simp [DigitalCertificate.burn, DigitalCertificate.owner_of,
        TokenMap.get_insert_self,
        TokenMap.take_insert_of_get_none _ _ _ hget, hget]

/-- Witness for C6 on a concrete mint of token 1 to `acctB`. -/
theorem mint_then_burn_by_owner_ok_witness :
    ((cert0.mint acctA 1 [5] acctB [6] [7]).2.burn acctB 1).1 =
      .ok () ∧
    ((cert0.mint acctA 1 [5] acctB [6] [7]).2.burn acctB
        1).2.owner_of 1 = none :=
  mint_then_burn_by_owner_ok cert0 acctA 1 [5] acctB [6] [7]
    (by decide)

/-- C7: after a successful mint of `k` followed by a successful burn
of `k` by its owner, a second mint of the same `k` by the issuer with
any non-null owner succeeds. -/
theorem mint_burn_remint_ok (s : DigitalCertificate)
    (caller : AccountId) (k : TokenId) (tu : List Nat) (o : AccountId)
    (ed cn tu2 : List Nat) (o2 : AccountId) (ed2 cn2 : List Nat)
    (h1 : (s.mint caller k tu o ed cn).1 = .ok ())
    (ho2 : o2 ≠ nullAccount) :
    (((s.mint caller k tu o ed cn).2.burn o k).2.mint
        ((s.mint caller k tu o ed cn).2.burn o k).2.issuer
        k tu2 o2 ed2 cn2).1 = .ok () := by
  obtain ⟨hc, hget, ho, hstate⟩ := mint_ok_inv s caller k tu o ed cn h1
  rw [hstate]
  simp [DigitalCertificate.burn, DigitalCertificate.mint,
        DigitalCertificate.add_token_to, TokenMap.contains,
        TokenMap.get_insert_self,
        TokenMap.take_insert_of_get_none _ _ _ hget, hget, ho2]

/-- Witness for C7: token 1 is minted to `acctB`, burned by `acctB`,
then minted again to `acctC`. -/
theorem mint_burn_remint_ok_witness :
    (((cert0.mint acctA 1 [5] acctB [6] [7]).2.burn acctB 1).2.mint
        ((cert0.mint acctA 1 [5] acctB [6] [7]).2.burn acctB
          1).2.issuer 1 [8] acctC [9] [4]).1 = .ok () :=
  mint_burn_remint_ok cert0 acctA 1 [5] acctB [6] [7] [8] acctC [9] [4]
    (by decide) (by decide)

/-- C8: when a mint invoked by the issuer fails in the registration
sub-step, the contract-wide fields `token_uri`, `expiration_date` and
`candidate_name` nevertheless hold the values supplied to that failed
call afterwards. -/
theorem failed_mint_metadata_overwritten (s : DigitalCertificate)
    (k : TokenId) (tu : List Nat) (o : AccountId) (ed cn : List Nat)
    (e : Error) (h : (s.mint s.issuer k tu o ed cn).1 = .error e) :
    (s.mint s.issuer k tu o ed cn).2.token_uri = tu ∧
    (s.mint s.issuer k tu o ed cn).2.expiration_date = ed ∧
    (s.mint s.issuer k tu o ed cn).2.candidate_name = cn := by
  by_cases hk : TokenMap.contains s.token_owner k
  · simp [DigitalCertificate.mint, DigitalCertificate.add_token_to, hk]
  · by_cases ho : o = nullAccount
    · simp [DigitalCertificate.mint, DigitalCertificate.add_token_to,
            hk, ho]
    · simp [DigitalCertificate.mint, DigitalCertificate.add_token_to,
            hk, ho] at h

/-- Witness for C8: a duplicate-id mint still overwrites the three
metadata fields. -/
theorem failed_mint_metadata_overwritten_witness :
    (certWithToken1.mint certWithToken1.issuer 1 [5] acctC
        [6] [7]).2.token_uri = [5] ∧
    (certWithToken1.mint certWithToken1.issuer 1 [5] acctC
        [6] [7]).2.expiration_date = [6] ∧
    (certWithToken1.mint certWithToken1.issuer 1 [5] acctC
        [6] [7]).2.candidate_name = [7] :=
  failed_mint_metadata_overwritten certWithToken1 1 [5] acctC [6] [7]
    .TokenExists (by decide)

/-- C9: for every operation and every prior state, the `issuer` and
`certificate_authority` fields after the call equal their values
before the call, and the constructor is what sets them. -/
theorem issuer_authority_immutable (s : DigitalCertificate)
    (caller i : AccountId) (ca : List Nat) (k : TokenId)
    (tu : List Nat) (o : AccountId) (ed cn : List Nat) :
    ((DigitalCertificate.new i ca).issuer = i ∧
     (DigitalCertificate.new i ca).certificate_authority = ca) ∧
    ((s.mint caller k tu o ed cn).2.issuer = s.issuer ∧
     (s.mint caller k tu o ed cn).2.certificate_authority =
       s.certificate_authority) ∧
    ((s.burn caller k).2.issuer = s.issuer ∧
     (s.burn caller k).2.certificate_authority =
       s.certificate_authority) := by
  refine ⟨⟨rfl, rfl⟩, ?_, ?_⟩
  · by_cases hc : caller = s.issuer
    · by_cases hk : TokenMap.contains s.token_owner k
      · simp [DigitalCertificate.mint, DigitalCertificate.add_token_to,
              hc, hk]
      · by_cases ho : o = nullAccount <;>
          simp [DigitalCertificate.mint,
                DigitalCertificate.add_token_to, hc, hk, ho]
    · simp [DigitalCertificate.mint, hc]
  · cases hg : s.token_owner.get k with
    | none => simp [DigitalCertificate.burn, hg]
    | some ow =>
        by_cases hca : ow = caller <;>
          simp [DigitalCertificate.burn, hg, hca]

/-- C10: when the caller is the issuer, the TokenId is already present
and the supplied owner is the null identity, `mint` returns
`Err(TokenExists)`, not `Err(NotAllowed)`: the duplicate-id check is
evaluated before the null-owner check. -/
theorem duplicate_check_precedes_null_check (s : DigitalCertificate)
    (k : TokenId) (tu ed cn : List Nat)
    (hk : TokenMap.contains s.token_owner k = true) :
    (s.mint s.issuer k tu nullAccount ed cn).1 =
      .error .TokenExists := by
  simp [DigitalCertificate.mint, DigitalCertificate.add_token_to, hk]

/-- Witness for C10: live token 1 plus null owner yields
`TokenExists`. -/
theorem duplicate_check_precedes_null_check_witness :
    (certWithToken1.mint certWithToken1.issuer 1 [] nullAccount
        [] []).1 = .error .TokenExists :=
  duplicate_check_precedes_null_check certWithToken1 1 [] [] []
    (by decide)

end DigitalCert
